import Mathlib

/-!
Formal model of the OTC trading pool simulator.

This file gives a shallow embedding of the core of the repository
(`otc_pool.py`, `analytics_engine.py`, `price_monitor.py`, and the
arbitrage scanner of `app.py`) and proves or refutes the frozen claims
about it.

Modelling conventions:
* Python floats are modelled as rational numbers (`ℚ`); no claim settled
  here depends on binary floating-point rounding.
* Python dicts are insertion-ordered, so `offers` is modelled as an
  association list `List (Nat × Offer)`; a new key is appended at the end,
  an update rewrites the first (and in reachable states only) entry in
  place.  In-place mutation of a dict value through an alias (as in
  `buy_offer[...] -= x`) is modelled by updating the entry inside the
  association list, which reproduces the aliasing when the two ids agree.
* A Python statement that raises an uncaught exception (KeyError,
  ValueError from `list.remove`) is modelled by `Except.error ()`.
* `with self.lock:` blocks of the single-acquisition methods are erased
  in the plain sequential functions (observationally faithful: one
  uncontended acquire/release).  `simulate_matching` and
  `get_pool_stats`, which re-acquire the lock they already hold, are
  modelled only by the lock-aware functions (`acquireLock`, the `…L`
  functions), which track the single non-reentrant `threading.Lock` of
  the pool: acquiring it while already holding it blocks forever
  (modelled as `none`).  The candidate loop of `simulate_matching` after
  its two list fetches is modelled separately as `mkCandidates`.
* Wall-clock timestamps (`datetime.now()`, `time.time()`) are not read by
  any of the claims and are omitted from the offer record.
-/

/-- Side of an offer, the canonical result of `offer_type.upper()` in
`OTCPool.add_offer` (callers pass the strings BUY and SELL). -/
inductive Side where
  | BUY
  | SELL
deriving DecidableEq, Repr

/-- Offer status strings used by `otc_pool.py`. -/
inductive Status where
  | ACTIVE
  | CANCELLED
  | COMPLETED
deriving DecidableEq, Repr

/-- One resting offer, the dict built in `OTCPool.add_offer`
(`otc_pool.py` lines 35-45); the two wall-clock timestamp fields are
omitted. -/
structure Offer where
  id : Nat
  type : Side
  sol_amount : ℚ
  price_per_sol : ℚ
  total_usdc : ℚ
  user_id : String
  status : Status
deriving DecidableEq, Repr

/-- The in-memory state of `OTCPool` (`otc_pool.py` lines 10-15): the
insertion-ordered id-to-offer dict, the list of active ids, the list of
completed ids, and the id counter. -/
structure OTCPool where
  offers : List (Nat × Offer)
  active_offers : List Nat
  completed_offers : List Nat
  next_id : Nat
deriving DecidableEq, Repr

/-- Fresh pool as built by `OTCPool.__init__`. -/
def OTCPool.init : OTCPool :=
  { offers := [], active_offers := [], completed_offers := [], next_id := 1 }

/-- Python dict read `offers[i]` / `offers.get(i)`: first entry with the
given key. -/
def alookup : List (Nat × Offer) → Nat → Option Offer
  | [], _ => none
  | e :: es, i => if e.1 = i then some e.2 else alookup es i

/-- Python in-place decrement `offers[i]["sol_amount"] -= a` through a dict
alias: rewrite the first entry with key `i`, subtracting `a` from its
current quantity.  A missing key leaves the list unchanged (this branch is
unreachable in the contexts where `adec` is used). -/
def adec : List (Nat × Offer) → Nat → ℚ → List (Nat × Offer)
  | [], _, _ => []
  | e :: es, i, a =>
    if e.1 = i then (e.1, { e.2 with sol_amount := e.2.sol_amount - a }) :: es
    else e :: adec es i a

/-- Python in-place status write `offers[i]["status"] = st` through a dict
alias. -/
def asetStatus : List (Nat × Offer) → Nat → Status → List (Nat × Offer)
  | [], _, _ => []
  | e :: es, i, st =>
    if e.1 = i then (e.1, { e.2 with status := st }) :: es
    else e :: asetStatus es i st

/-- `OTCPool.add_offer` (`otc_pool.py` lines 17-50): allocates the next id,
builds the offer dict with `total_usdc = sol_amount * price_per_sol` and
status ACTIVE, stores it and appends the id to the active index.  Note the
source performs no validation of `sol_amount` or `price_per_sol`. -/
def add_offer (p : OTCPool) (offer_type : Side) (sol_amount price_per_sol : ℚ)
    (user_id : String) : Nat × OTCPool :=
  let offer_id := p.next_id
  let offer : Offer :=
    { id := offer_id, type := offer_type, sol_amount := sol_amount,
      price_per_sol := price_per_sol, total_usdc := sol_amount * price_per_sol,
      user_id := user_id, status := Status.ACTIVE }
  (offer_id,
   { offers := p.offers ++ [(offer_id, offer)],
     active_offers := p.active_offers ++ [offer_id],
     completed_offers := p.completed_offers,
     next_id := p.next_id + 1 })

/-- `OTCPool.cancel_offer` (`otc_pool.py` lines 52-67). -/
def cancel_offer (p : OTCPool) (offer_id : Nat) : Bool × OTCPool :=
  if offer_id ∈ p.active_offers ∧ (alookup p.offers offer_id).isSome then
    (true,
     { p with offers := asetStatus p.offers offer_id Status.CANCELLED,
              active_offers := p.active_offers.erase offer_id })
  else (false, p)

/-- `OTCPool.get_active_offers` (`otc_pool.py` lines 69-73), lock erased. -/
def get_active_offers (p : OTCPool) : List Offer :=
  p.active_offers.filterMap (alookup p.offers)

/-- `OTCPool.get_offer` (`otc_pool.py` lines 75-78), lock erased. -/
def get_offer (p : OTCPool) (offer_id : Nat) : Option Offer :=
  alookup p.offers offer_id

/-- `OTCPool.get_offers_by_type` (`otc_pool.py` lines 80-84), lock erased:
active ids in index order, resolved through the dict, filtered by side. -/
def get_offers_by_type (p : OTCPool) (offer_type : Side) : List Offer :=
  p.active_offers.filterMap fun i =>
    match alookup p.offers i with
    | some o => if o.type = offer_type then some o else none
    | none => none

/-- One candidate match as built in `OTCPool.simulate_matching`
(`otc_pool.py` lines 113-123); the timestamp field is omitted. -/
structure Match where
  buy_id : Nat
  sell_id : Nat
  match_amount : ℚ
  match_price : ℚ
  buy_price : ℚ
  sell_price : ℚ
  spread : ℚ
  total_usdc : ℚ
deriving DecidableEq, Repr

/-- Match record for a crossing buy/sell pair (`otc_pool.py` lines
108-123): matched quantity is the minimum of the two resting quantities,
matched price the midpoint of the two leg prices. -/
def mkMatch (b s : Offer) : Match :=
  { buy_id := b.id, sell_id := s.id,
    match_amount := min b.sol_amount s.sol_amount,
    match_price := (b.price_per_sol + s.price_per_sol) / 2,
    buy_price := b.price_per_sol, sell_price := s.price_per_sol,
    spread := b.price_per_sol - s.price_per_sol,
    total_usdc := min b.sol_amount s.sol_amount *
      ((b.price_per_sol + s.price_per_sol) / 2) }

/-- Sort relation used for the buy side: `buy_offers.sort(key=price,
reverse=True)` keeps `a` before `b` exactly when the price of `a` is at
least the price of `b` (Python sorts are stable). -/
def buyLE (a b : Offer) : Prop := b.price_per_sol ≤ a.price_per_sol

/-- Sort relation used for the sell side: `sell_offers.sort(key=price)`. -/
def sellLE (a b : Offer) : Prop := a.price_per_sol ≤ b.price_per_sol

instance : DecidableRel buyLE := fun a b =>
  inferInstanceAs (Decidable (b.price_per_sol ≤ a.price_per_sol))

instance : DecidableRel sellLE := fun a b =>
  inferInstanceAs (Decidable (a.price_per_sol ≤ b.price_per_sol))

/-- Specification order of the sorted buy side: price strictly descending,
ties broken by ascending id. -/
def buyOrd (a b : Offer) : Prop :=
  b.price_per_sol < a.price_per_sol ∨
    (a.price_per_sol = b.price_per_sol ∧ a.id < b.id)

/-- Specification order of the sorted sell side: price strictly ascending,
ties broken by ascending id. -/
def sellOrd (a b : Offer) : Prop :=
  a.price_per_sol < b.price_per_sol ∨
    (a.price_per_sol = b.price_per_sol ∧ a.id < b.id)

/-- The nested candidate loop of `OTCPool.simulate_matching` (`otc_pool.py`
lines 97-127) on already-fetched buy and sell lists: stable-sort buys by
price descending and sells by price ascending (Python `list.sort` is
stable; `List.insertionSort` is the stable sort with the given
keep-before relation), then emit one match per crossing pair, buys
outermost. -/
def mkCandidates (buys sells : List Offer) : List Match :=
  let sorted_buys := buys.insertionSort buyLE
  let sorted_sells := sells.insertionSort sellLE
  sorted_buys.flatMap fun b =>
    (sorted_sells.filter fun s =>
      decide (s.price_per_sol ≤ b.price_per_sol)).map (mkMatch b)

/-- `OTCPool.execute_match` (`otc_pool.py` lines 129-169).  Returns
`Except.error ()` on the paths where the Python body would raise an
uncaught exception (a missing dict key, or `list.remove` on an id that is
no longer in the active index). -/
def execute_match (p : OTCPool) (buy_id sell_id : Nat)
    (match_amount match_price : ℚ) : Except Unit (Bool × OTCPool) :=
  match alookup p.offers buy_id, alookup p.offers sell_id with
  | some buy_offer, some sell_offer =>
    if buy_offer.status ≠ Status.ACTIVE ∨ sell_offer.status ≠ Status.ACTIVE ∨
        buy_id ∉ p.active_offers ∨ sell_id ∉ p.active_offers then
      Except.ok (false, p)
    else
      -- the two aliased in-place decrements, in source order
      let offers₁ := adec p.offers buy_id match_amount
      let offers₂ := adec offers₁ sell_id match_amount
      match alookup offers₂ buy_id with
      | none => Except.error ()
      | some buyNow =>
        -- first completion check, on the buy leg
        let st₃ :=
          if buyNow.sol_amount ≤ 0 then
            (asetStatus offers₂ buy_id Status.COMPLETED,
             p.active_offers.erase buy_id,
             p.completed_offers ++ [buy_id])
          else (offers₂, p.active_offers, p.completed_offers)
        match alookup st₃.1 sell_id with
        | none => Except.error ()
        | some sellNow =>
          -- second completion check, on the sell leg
          if sellNow.sol_amount ≤ 0 then
            if sell_id ∈ st₃.2.1 then
              Except.ok (true,
                { offers := asetStatus st₃.1 sell_id Status.COMPLETED,
                  active_offers := st₃.2.1.erase sell_id,
                  completed_offers := st₃.2.2 ++ [sell_id],
                  next_id := p.next_id })
            else
              -- ValueError: list.remove(x): x not in list
              Except.error ()
          else
            Except.ok (true,
              { offers := st₃.1, active_offers := st₃.2.1,
                completed_offers := st₃.2.2, next_id := p.next_id })
  | _, _ => Except.ok (false, p)

/-- `OTCPool.clear_pool` (`otc_pool.py` lines 193-199): drops every record
and resets the id counter to 1. -/
def clear_pool (_p : OTCPool) : OTCPool := OTCPool.init

/-- Python `max(...)` over a generator; the empty case is guarded by an
`if ... else 0` at every use site in `get_pool_stats`, reproduced here. -/
def listMax : List ℚ → ℚ
  | [] => 0
  | x :: xs => xs.foldl max x

/-- Python `min(...)` over a generator, empty case as in `listMax`. -/
def listMin : List ℚ → ℚ
  | [] => 0
  | x :: xs => xs.foldl min x

/-- The aggregate view built by `OTCPool.get_pool_stats` (`otc_pool.py`
lines 178-189). -/
structure Stats where
  total_active_offers : Nat
  buy_offers_count : Nat
  sell_offers_count : Nat
  completed_offers_count : Nat
  total_sol_buy_volume : ℚ
  total_sol_sell_volume : ℚ
  avg_buy_price : ℚ
  avg_sell_price : ℚ
  highest_buy_price : ℚ
  lowest_sell_price : ℚ
deriving DecidableEq, Repr

/-- Body of `OTCPool.get_pool_stats` after the active offers have been
fetched (`otc_pool.py` lines 175-189). -/
def mkStats (acts : List Offer) (completed_count : Nat) : Stats :=
  let buys := acts.filter fun o => decide (o.type = Side.BUY)
  let sells := acts.filter fun o => decide (o.type = Side.SELL)
  { total_active_offers := acts.length,
    buy_offers_count := buys.length,
    sell_offers_count := sells.length,
    completed_offers_count := completed_count,
    total_sol_buy_volume := (buys.map Offer.sol_amount).sum,
    total_sol_sell_volume := (sells.map Offer.sol_amount).sum,
    avg_buy_price :=
      if buys = [] then 0
      else (buys.map Offer.price_per_sol).sum / buys.length,
    avg_sell_price :=
      if sells = [] then 0
      else (sells.map Offer.price_per_sol).sum / sells.length,
    highest_buy_price :=
      if buys = [] then 0 else listMax (buys.map Offer.price_per_sol),
    lowest_sell_price :=
      if sells = [] then 0 else listMin (sells.map Offer.price_per_sol) }

/-!
Lock-aware model.  `OTCPool.lock` is a `threading.Lock()`, which is NOT
reentrant: a thread that acquires it while already holding it blocks
forever.  `acquireLock locked` models entering `with self.lock:` while the
lock is (`true`) or is not (`false`) already held by the current thread;
the blocked case is `none`.  Each public method starts with the lock not
held by the caller.
-/

/-- Acquire the single non-reentrant pool lock: blocks forever (`none`)
when the current thread already holds it. -/
def acquireLock (locked : Bool) : Option Unit :=
  if locked then none else some ()

/-- `OTCPool.get_active_offers` with its `with self.lock:` block modelled
explicitly, as invoked while the current thread holds (`locked = true`) or
does not hold the lock. -/
def get_active_offersL (p : OTCPool) (locked : Bool) : Option (List Offer) :=
  (acquireLock locked).map fun _ => get_active_offers p

/-- `OTCPool.get_offers_by_type` with its lock acquisition modelled
explicitly. -/
def get_offers_by_typeL (p : OTCPool) (offer_type : Side) (locked : Bool) :
    Option (List Offer) :=
  (acquireLock locked).map fun _ => get_offers_by_type p offer_type

/-- `OTCPool.simulate_matching` with locking modelled: the outer
`with self.lock:` (line 93) is entered with the lock free, and the two
`self.get_offers_by_type` calls (lines 94-95) then run while the same
thread already holds the lock. -/
def simulate_matchingL (p : OTCPool) : Option (List Match) := do
  let _ ← acquireLock false
  let buys ← get_offers_by_typeL p Side.BUY true
  let sells ← get_offers_by_typeL p Side.SELL true
  pure (mkCandidates buys sells)

/-- `OTCPool.get_pool_stats` with locking modelled: the outer
`with self.lock:` (line 173) is entered with the lock free, and the
`self.get_active_offers()` call (line 174) then runs while the same thread
already holds the lock. -/
def get_pool_statsL (p : OTCPool) : Option Stats := do
  let _ ← acquireLock false
  let acts ← get_active_offersL p true
  pure (mkStats acts p.completed_offers.length)

/-- `OTCPool.add_offer` with locking modelled: a single acquisition from a
thread that does not yet hold the lock, hence it always completes. -/
def add_offerL (p : OTCPool) (offer_type : Side) (sol_amount price_per_sol : ℚ)
    (user_id : String) : Option (Nat × OTCPool) :=
  (acquireLock false).map fun _ => add_offer p offer_type sol_amount price_per_sol user_id

/-- `OTCPool.cancel_offer` with locking modelled (single acquisition). -/
def cancel_offerL (p : OTCPool) (offer_id : Nat) : Option (Bool × OTCPool) :=
  (acquireLock false).map fun _ => cancel_offer p offer_id

/-- `OTCPool.execute_match` with locking modelled (single acquisition). -/
def execute_matchL (p : OTCPool) (buy_id sell_id : Nat)
    (match_amount match_price : ℚ) :
    Option (Except Unit (Bool × OTCPool)) :=
  (acquireLock false).map fun _ =>
    execute_match p buy_id sell_id match_amount match_price

/-!
Arbitrage scoring (`analytics_engine.py` lines 237-301 and the scanner in
`app.py` lines 440-498).  The execution-cost estimate (`price_impact`,
fetched from the external quote API in the source) is a parameter here, as
in the specification of the pure scoring helper.  The source finally
presents the score through Python `round(score, 2)`; the claims about
monotonicity and range concern the score value itself, and the
counterexample value below is exact, so the display rounding is left
out of the model.
-/

/-- Signed gross spread percentage (`analytics_engine.py` lines 251-255,
identical formula in `price_monitor._calculate_spread_percentage`). -/
def spread_pct (offer_type : Side) (otc_price jupiter_price : ℚ) : ℚ :=
  match offer_type with
  | Side.BUY => (otc_price - jupiter_price) / jupiter_price * 100
  | Side.SELL => (jupiter_price - otc_price) / jupiter_price * 100

/-- `base_score = max(0, min(100, (net_arbitrage + 5) * 10))`
(`analytics_engine.py` line 265). -/
def base_score (net_arbitrage : ℚ) : ℚ :=
  max 0 (min 100 ((net_arbitrage + 5) * 10))

/-- Volume adjustment (`analytics_engine.py` lines 268-272): 0.8 above 10
SOL, 1.1 below 1 SOL, otherwise 1.0. -/
def volume_factor (volume : ℚ) : ℚ :=
  if 10 < volume then 8 / 10 else if volume < 1 then 11 / 10 else 1

/-- Final score as a function of the net spread and the volume
(`analytics_engine.py` line 274). -/
def score_of_net (net_arbitrage volume : ℚ) : ℚ :=
  base_score net_arbitrage * volume_factor volume

/-- `AnalyticsEngine.calculate_arbitrage_score` (`analytics_engine.py`
lines 237-301), with the externally fetched price impact as the
execution-cost parameter: net spread is the gross spread minus the
impact, scored through `score_of_net`. -/
def calculate_arbitrage_score (otc_price jupiter_price : ℚ) (offer_type : Side)
    (volume price_impact : ℚ) : ℚ :=
  score_of_net (spread_pct offer_type otc_price jupiter_price - price_impact) volume

/-- Score used by the manual arbitrage scanner of `app.py` (line 473):
`min(100, max(0, net_spread * 15))`. -/
def scanner_score (net_spread : ℚ) : ℚ :=
  min 100 (max 0 (net_spread * 15))

/-!
Price monitor (`price_monitor.py`).  A monitor cycle of `_monitor_loop`
either obtains a quote (`price_data` truthy) and publishes it to
`last_price` / `last_update`, or fails (a falsy result or an exception
caught by the `except` clause at lines 81-84) and leaves that shared
price state untouched.  Timestamps are abstract ticks.
-/

/-- The price state owned by `PriceMonitor` (`price_monitor.py` lines
17-18): last observed price and its fetch timestamp, both absent until the
first successful fetch. -/
structure MonitorState where
  last_price : Option ℚ
  last_update : Option Nat
deriving DecidableEq, Repr

/-- Monitor state right after `PriceMonitor.__init__`. -/
def MonitorState.init : MonitorState :=
  { last_price := none, last_update := none }

/-- One iteration of `PriceMonitor._monitor_loop` (lines 43-84) restricted
to the shared price state: `fetch = some (price, now)` is a successful
`get_sol_usdc_quote` (lines 48-58 publish price and timestamp),
`fetch = none` is a failed fetch or an exception, after which the state is
untouched and the loop merely waits and retries. -/
def monitor_cycle (s : MonitorState) (fetch : Option (ℚ × Nat)) : MonitorState :=
  match fetch with
  | none => s
  | some (price, now) => { last_price := some price, last_update := some now }

/-- Run the monitor loop over a whole history of fetch outcomes. -/
def run_monitor (s : MonitorState) (fetches : List (Option (ℚ × Nat))) :
    MonitorState :=
  fetches.foldl monitor_cycle s

/-- `PriceMonitor.get_current_price` (`price_monitor.py` lines 133-135). -/
def get_current_price (s : MonitorState) : Option ℚ :=
  s.last_price

/-!
Invariants and guard predicates used by the claims.
-/

/-- Structural invariant of reachable pools that the ordering claims rely
on: the active index is strictly increasing (ids are appended in
allocation order and removals keep relative order), and every stored
offer record carries its own key in its `id` field. -/
def PoolInv (p : OTCPool) : Prop :=
  p.active_offers.Pairwise (· < ·) ∧ ∀ e ∈ p.offers, e.2.id = e.1

/-- Every allocated key is below the id counter. -/
def IdBound (p : OTCPool) : Prop :=
  ∀ k ∈ p.offers.map Prod.fst, k < p.next_id

/-- The success guard of `OTCPool.execute_match` (`otc_pool.py` lines
144-152): both ids resolve, both offers are ACTIVE and both ids are in the
active index.  Note the source checks nothing about `match_amount`. -/
def exec_guard (p : OTCPool) (buy_id sell_id : Nat) : Prop :=
  ∃ bo so, alookup p.offers buy_id = some bo ∧ alookup p.offers sell_id = some so ∧
    bo.status = Status.ACTIVE ∧ so.status = Status.ACTIVE ∧
    buy_id ∈ p.active_offers ∧ sell_id ∈ p.active_offers

/-- Pool with BUY offer id 1 (quantity 1 at price 100) and SELL offer id 2
(quantity 2 at price 90). -/
def demoPool : OTCPool :=
  (add_offer (add_offer OTCPool.init Side.BUY 1 100 "u").2 Side.SELL 2 90 "v").2

/-- Pool with BUY offer id 1 (quantity 2 at price 100) and SELL offer id 2
(quantity 1 at price 100). -/
def demoNotionalPool : OTCPool :=
  (add_offer (add_offer OTCPool.init Side.BUY 2 100 "u").2 Side.SELL 1 100 "v").2

/-- Pool with a single BUY offer id 1, quantity 2 at price 100. -/
def demoSelfPool : OTCPool :=
  (add_offer OTCPool.init Side.BUY 2 100 "u").2

/-- Pool with a single BUY offer id 1, quantity 3 at price 100. -/
def demoSelfPool3 : OTCPool :=
  (add_offer OTCPool.init Side.BUY 3 100 "u").2

/-- The pool state produced by `execute_match demoPool 1 2 (1/2) 95`:
both legs decremented by 1/2 and still ACTIVE. -/
def demoPoolAfter : OTCPool :=
  { offers :=
      [(1, { id := 1, type := Side.BUY, sol_amount := 1/2, price_per_sol := 100,
             total_usdc := 100, user_id := "u", status := Status.ACTIVE }),
       (2, { id := 2, type := Side.SELL, sol_amount := 3/2, price_per_sol := 90,
             total_usdc := 180, user_id := "v", status := Status.ACTIVE })],
    active_offers := [1, 2], completed_offers := [], next_id := 3 }

/-!
Lemmas about the association-list primitives.
-/

theorem alookup_adec (l : List (Nat × Offer)) (i : Nat) (a : ℚ) (k : Nat) :
    alookup (adec l i a) k =
      if i = k then
        (alookup l k).map fun o => { o with sol_amount := o.sol_amount - a }
      else alookup l k := by
  induction l with
  | nil => simp [adec, alookup]
  | cons e es ih =>
    simp only [adec]
    by_cases hei : e.1 = i
    · rw [if_pos hei]
      by_cases hik : i = k
      · subst hik
        simp [alookup, hei]
      · have hek : e.1 ≠ k := hei ▸ hik
        simp [alookup, hek, hik]
    · rw [if_neg hei]
      by_cases hek : e.1 = k
      · have hik : i ≠ k := fun hh => hei (hh ▸ hek)
        simp [alookup, hek, hik]
      · simp [alookup, hek, ih]

theorem alookup_asetStatus (l : List (Nat × Offer)) (i : Nat) (st : Status)
    (k : Nat) :
    alookup (asetStatus l i st) k =
      if i = k then (alookup l k).map fun o => { o with status := st }
      else alookup l k := by
  induction l with
  | nil => simp [asetStatus, alookup]
  | cons e es ih =>
    simp only [asetStatus]
    by_cases hei : e.1 = i
    · rw [if_pos hei]
      by_cases hik : i = k
      · subst hik
        simp [alookup, hei]
      · have hek : e.1 ≠ k := hei ▸ hik
        simp [alookup, hek, hik]
    · rw [if_neg hei]
      by_cases hek : e.1 = k
      · have hik : i ≠ k := fun hh => hei (hh ▸ hek)
        simp [alookup, hek, hik]
      · simp [alookup, hek, ih]

theorem keys_adec (l : List (Nat × Offer)) (i : Nat) (a : ℚ) :
    (adec l i a).map Prod.fst = l.map Prod.fst := by
  induction l with
  | nil => rfl
  | cons e es ih => by_cases hei : e.1 = i <;> simp [adec, hei, ih]

theorem keys_asetStatus (l : List (Nat × Offer)) (i : Nat) (st : Status) :
    (asetStatus l i st).map Prod.fst = l.map Prod.fst := by
  induction l with
  | nil => rfl
  | cons e es ih => by_cases hei : e.1 = i <;> simp [asetStatus, hei, ih]

theorem total_adec (l : List (Nat × Offer)) (i : Nat) (a : ℚ) (k : Nat) :
    (alookup (adec l i a) k).map Offer.total_usdc =
      (alookup l k).map Offer.total_usdc := by
  rw [alookup_adec]
  split
  · cases alookup l k <;> rfl
  · rfl

theorem total_asetStatus (l : List (Nat × Offer)) (i : Nat) (st : Status)
    (k : Nat) :
    (alookup (asetStatus l i st) k).map Offer.total_usdc =
      (alookup l k).map Offer.total_usdc := by
  rw [alookup_asetStatus]
  split
  · cases alookup l k <;> rfl
  · rfl

theorem alookup_eq_none_iff (l : List (Nat × Offer)) (i : Nat) :
    alookup l i = none ↔ ∀ e ∈ l, e.1 ≠ i := by
  induction l with
  | nil => simp [alookup]
  | cons e es ih =>
    by_cases hei : e.1 = i <;> simp [alookup, hei, ih]

theorem alookup_append_fresh (l : List (Nat × Offer)) (i : Nat) (o : Offer)
    (h : alookup l i = none) : alookup (l ++ [(i, o)]) i = some o := by
  induction l with
  | nil => simp [alookup]
  | cons e es ih =>
    rw [alookup_eq_none_iff] at h
    have he : e.1 ≠ i := h e (by simp)
    rw [List.cons_append, alookup, if_neg he]
    exact ih ((alookup_eq_none_iff es i).2 fun x hx => h x (by simp [hx]))

/-- Characterization of every non-raising run of `execute_match`: either
the guard failed and the pool is returned untouched with `false`, or the
call returns `true`, the id counter and the key set are unchanged, and no
stored `total_usdc` field is touched. -/
theorem execute_match_ok {p : OTCPool} {b s : Nat} {a pr : ℚ} {r : Bool}
    {p' : OTCPool} (h : execute_match p b s a pr = Except.ok (r, p')) :
    (r = false ∧ p' = p) ∨
    (r = true ∧ p'.next_id = p.next_id ∧
      p'.offers.map Prod.fst = p.offers.map Prod.fst ∧
      ∀ k, (alookup p'.offers k).map Offer.total_usdc =
        (alookup p.offers k).map Offer.total_usdc) := by
  simp only [execute_match] at h
  split at h
  case h_2 => left; simpa [eq_comm, and_comm] using h
  case h_1 buy_offer sell_offer hb hs =>
    split at h
    · left; simpa [eq_comm, and_comm] using h
    · split at h
      · exact absurd h (by simp)
      case h_2 buyNow hbn =>
        by_cases hbz : buyNow.sol_amount ≤ 0 <;>
            [rw [if_pos hbz] at h; rw [if_neg hbz] at h] <;>
          · split at h
            · exact absurd h (by simp)
            · rename_i sellNow hsn
              by_cases hsz : sellNow.sol_amount ≤ 0
              · rw [if_pos hsz] at h
                split at h
                · simp only [Except.ok.injEq, Prod.mk.injEq] at h
                  obtain ⟨hr, hp⟩ := h
                  right
                  refine ⟨hr.symm, ?_, ?_, ?_⟩ <;> rw [← hp]
                  · simp [keys_asetStatus, keys_adec]
                  · intro k
                    simp [total_asetStatus, total_adec]
                · exact absurd h (by simp)
              · rw [if_neg hsz] at h
                simp only [Except.ok.injEq, Prod.mk.injEq] at h
                obtain ⟨hr, hp⟩ := h
                right
                refine ⟨hr.symm, ?_, ?_, ?_⟩ <;> rw [← hp]
                · simp [keys_asetStatus, keys_adec]
                · intro k
                  simp [total_asetStatus, total_adec]

theorem alookup_mem {l : List (Nat × Offer)} {k : Nat} {o : Offer}
    (h : alookup l k = some o) : (k, o) ∈ l := by
  induction l with
  | nil => simp [alookup] at h
  | cons e es ih =>
    rw [alookup] at h
    by_cases he : e.1 = k
    · rw [if_pos he] at h
      have h2 := Option.some.inj h
      subst h2
      subst he
      simp
    · rw [if_neg he] at h
      exact List.mem_cons_of_mem _ (ih h)

/-!
Stability of the two sorts in the candidate loop of
`OTCPool.simulate_matching`.  The buy list is sorted
by price descending with `reverse=True` and the sell list by price
ascending; both sorts are stable, and the input lists enumerate offers in
ascending id order, so ties end up broken by ascending id.
-/

theorem orderedInsert_pairwise_buy (x : Offer) (l : List Offer)
    (hp : l.Pairwise buyOrd) (hid : ∀ y ∈ l, x.id < y.id) :
    (l.orderedInsert buyLE x).Pairwise buyOrd := by
  induction l with
  | nil => simp [buyOrd]
  | cons y ys ih =>
    obtain ⟨hy, hys⟩ := List.pairwise_cons.mp hp
    simp only [List.orderedInsert]
    by_cases hxy : buyLE x y
    · rw [if_pos hxy]
      have hxy2 : y.price_per_sol ≤ x.price_per_sol := hxy
      refine List.pairwise_cons.mpr ⟨?_, hp⟩
      intro z hz
      have hzx : z.price_per_sol ≤ x.price_per_sol := by
        rcases List.mem_cons.mp hz with rfl | hz2
        · exact hxy2
        · rcases hy z hz2 with h1 | ⟨h1, _⟩
          · exact le_trans (le_of_lt h1) hxy2
          · exact le_trans (le_of_eq h1.symm) hxy2
      rcases lt_or_eq_of_le hzx with hlt | heq
      · exact Or.inl hlt
      · exact Or.inr ⟨heq.symm, hid z hz⟩
    · rw [if_neg hxy]
      have hyx : x.price_per_sol < y.price_per_sol := not_le.mp hxy
      refine List.pairwise_cons.mpr ⟨?_, ?_⟩
      · intro w hw
        rcases (List.mem_orderedInsert buyLE).mp hw with rfl | hw2
        · exact Or.inl hyx
        · exact hy w hw2
      · exact ih hys fun z hz => hid z (List.mem_cons_of_mem _ hz)

theorem orderedInsert_pairwise_sell (x : Offer) (l : List Offer)
    (hp : l.Pairwise sellOrd) (hid : ∀ y ∈ l, x.id < y.id) :
    (l.orderedInsert sellLE x).Pairwise sellOrd := by
  induction l with
  | nil => simp [sellOrd]
  | cons y ys ih =>
    obtain ⟨hy, hys⟩ := List.pairwise_cons.mp hp
    simp only [List.orderedInsert]
    by_cases hxy : sellLE x y
    · rw [if_pos hxy]
      have hxy2 : x.price_per_sol ≤ y.price_per_sol := hxy
      refine List.pairwise_cons.mpr ⟨?_, hp⟩
      intro z hz
      have hxz : x.price_per_sol ≤ z.price_per_sol := by
        rcases List.mem_cons.mp hz with rfl | hz2
        · exact hxy2
        · rcases hy z hz2 with h1 | ⟨h1, _⟩
          · exact le_trans hxy2 (le_of_lt h1)
          · exact le_trans hxy2 (le_of_eq h1)
      rcases lt_or_eq_of_le hxz with hlt | heq
      · exact Or.inl hlt
      · exact Or.inr ⟨heq, hid z hz⟩
    · rw [if_neg hxy]
      have hyx : y.price_per_sol < x.price_per_sol := not_le.mp hxy
      refine List.pairwise_cons.mpr ⟨?_, ?_⟩
      · intro w hw
        rcases (List.mem_orderedInsert sellLE).mp hw with rfl | hw2
        · exact Or.inl hyx
        · exact hy w hw2
      · exact ih hys fun z hz => hid z (List.mem_cons_of_mem _ hz)

theorem insertionSort_pairwise_buy (l : List Offer)
    (hl : l.Pairwise fun a b => a.id < b.id) :
    (l.insertionSort buyLE).Pairwise buyOrd := by
  induction l with
  | nil => simp
  | cons a l ih =>
    obtain ⟨ha, hl2⟩ := List.pairwise_cons.mp hl
    simp only [List.insertionSort]
    exact orderedInsert_pairwise_buy a _ (ih hl2)
      fun y hy => ha y ((List.mem_insertionSort buyLE).mp hy)

theorem insertionSort_pairwise_sell (l : List Offer)
    (hl : l.Pairwise fun a b => a.id < b.id) :
    (l.insertionSort sellLE).Pairwise sellOrd := by
  induction l with
  | nil => simp
  | cons a l ih =>
    obtain ⟨ha, hl2⟩ := List.pairwise_cons.mp hl
    simp only [List.insertionSort]
    exact orderedInsert_pairwise_sell a _ (ih hl2)
      fun y hy => ha y ((List.mem_insertionSort sellLE).mp hy)

/-- In a pool satisfying `PoolInv`, the per-side active lists enumerate
offers in strictly ascending id order. -/
theorem get_offers_by_type_pairwise (p : OTCPool) (hp : PoolInv p) (ty : Side) :
    (get_offers_by_type p ty).Pairwise fun a b => a.id < b.id := by
  unfold get_offers_by_type
  rw [List.pairwise_filterMap]
  refine hp.1.imp ?_
  intro i j hij o ho o2 ho2
  have hid : ∀ (k : Nat) (x : Offer),
      (x ∈ match alookup p.offers k with
        | some o0 => if o0.type = ty then some o0 else none
        | none => none) → x.id = k := by
    intro k x hx
    cases hk : alookup p.offers k with
    | none => simp [hk] at hx
    | some o0 =>
      simp only [hk] at hx
      by_cases hty : o0.type = ty
      · rw [if_pos hty] at hx
        have hx2 : o0 = x := by simpa using hx
        subst hx2
        exact hp.2 (k, o0) (alookup_mem hk)
      · rw [if_neg hty] at hx
        simp at hx
  rw [hid i o ho, hid j o2 ho2]
  exact hij

/-!
Monitor loop lemmas.
-/

theorem run_monitor_nones (s : MonitorState) (fs : List (Option (ℚ × Nat)))
    (h : ∀ f ∈ fs, f = none) : run_monitor s fs = s := by
  induction fs with
  | nil => rfl
  | cons f fs ih =>
    have hf := h f (by simp)
    subst hf
    simpa [run_monitor, monitor_cycle] using
      ih fun g hg => h g (List.mem_cons_of_mem _ hg)

/-- Claim C1, corrected.  The original claim says a successful
`execute(buyId, sellId, quantity, price)` decrements both legs clamped at
zero, never producing a negative quantity; the counterexample below
refutes the clamping.  Amended statement, proved here: on every successful
`execute_match` over distinct legs of a well-formed pool, each leg is
decremented by exactly the requested quantity with NO clamping; a leg
whose new quantity is ≤ 0 flips to COMPLETED and leaves the active index,
and a leg whose new quantity stays positive remains ACTIVE and stays in
the active index. -/
theorem claim_C1 (p : OTCPool) (b s : Nat) (a pr : ℚ)
    (p' : OTCPool) (hinv : PoolInv p) (hbs : b ≠ s)
    (h : execute_match p b s a pr = Except.ok (true, p')) :
    ∃ bo so, alookup p.offers b = some bo ∧ alookup p.offers s = some so ∧
      bo.status = Status.ACTIVE ∧ so.status = Status.ACTIVE ∧
      (alookup p'.offers b).map Offer.sol_amount = some (bo.sol_amount - a) ∧
      (alookup p'.offers s).map Offer.sol_amount = some (so.sol_amount - a) ∧
      (alookup p'.offers b).map Offer.status =
        some (if bo.sol_amount - a ≤ 0 then Status.COMPLETED else Status.ACTIVE) ∧
      (alookup p'.offers s).map Offer.status =
        some (if so.sol_amount - a ≤ 0 then Status.COMPLETED else Status.ACTIVE) ∧
      (b ∈ p'.active_offers ↔ ¬bo.sol_amount - a ≤ 0) ∧
      (s ∈ p'.active_offers ↔ ¬so.sol_amount - a ≤ 0) := by
  have hnd : p.active_offers.Nodup := hinv.1.imp fun hab => Nat.ne_of_lt hab
  have hsb : ¬(s = b) := fun hh => hbs hh.symm
  simp only [execute_match] at h
  split at h
  case h_2 => simp at h
  case h_1 buy_offer sell_offer hb hs =>
    split at h
    · simp at h
    · rename_i hguard
      push_neg at hguard
      obtain ⟨hbA, hsA, hbm, hsm⟩ := hguard
      refine ⟨buy_offer, sell_offer, hb, hs, hbA, hsA, ?_⟩
      have hlb : alookup (adec (adec p.offers b a) s a) b =
          some { buy_offer with sol_amount := buy_offer.sol_amount - a } := by
        rw [alookup_adec, if_neg hsb, alookup_adec, if_pos rfl, hb]
        rfl
      have hls : alookup (adec (adec p.offers b a) s a) s =
          some { sell_offer with sol_amount := sell_offer.sol_amount - a } := by
        rw [alookup_adec, if_pos rfl, alookup_adec, if_neg hbs, hs]
        rfl
      split at h
      · rename_i hnone
        rw [hlb] at hnone
        simp at hnone
      · rename_i buyNow hbn
        rw [hlb] at hbn
        have hbn2 := Option.some.inj hbn
        subst hbn2
        by_cases hbz : buy_offer.sol_amount - a ≤ 0
        · rw [if_pos hbz] at h
          split at h
          · rename_i hnone
            rw [alookup_asetStatus, if_neg hbs, hls] at hnone
            simp at hnone
          · rename_i sellNow hsn
            rw [alookup_asetStatus, if_neg hbs, hls] at hsn
            have hsn2 := Option.some.inj hsn
            subst hsn2
            by_cases hsz : sell_offer.sol_amount - a ≤ 0
            · rw [if_pos hsz] at h
              rw [if_pos ((List.mem_erase_of_ne hsb).mpr hsm)] at h
              simp only [Except.ok.injEq, Prod.mk.injEq, true_and] at h
              subst h
              refine ⟨?_, ?_, ?_, ?_, ?_, ?_⟩
              · rw [alookup_asetStatus, if_neg hsb, alookup_asetStatus,
                  if_pos rfl, hlb]
                rfl
              · rw [alookup_asetStatus, if_pos rfl, alookup_asetStatus,
                  if_neg hbs, hls]
                rfl
              · rw [alookup_asetStatus, if_neg hsb, alookup_asetStatus,
                  if_pos rfl, hlb, if_pos hbz]
                rfl
              · rw [alookup_asetStatus, if_pos rfl, alookup_asetStatus,
                  if_neg hbs, hls, if_pos hsz]
                rfl
              · simp only [hbz, not_true_eq_false, iff_false]
                intro hmm
                exact hnd.not_mem_erase (List.mem_of_mem_erase hmm)
              · simp only [hsz, not_true_eq_false, iff_false]
                exact (hnd.erase b).not_mem_erase
            · rw [if_neg hsz] at h
              simp only [Except.ok.injEq, Prod.mk.injEq, true_and] at h
              subst h
              refine ⟨?_, ?_, ?_, ?_, ?_, ?_⟩
              · rw [alookup_asetStatus, if_pos rfl, hlb]
                rfl
              · rw [alookup_asetStatus, if_neg hbs, hls]
                rfl
              · rw [alookup_asetStatus, if_pos rfl, hlb, if_pos hbz]
                rfl
              · rw [alookup_asetStatus, if_neg hbs, hls, if_neg hsz]
                simp [hsA]
              · simp only [hbz, not_true_eq_false, iff_false]
                exact hnd.not_mem_erase
              · simp only [hsz, not_false_eq_true, iff_true]
                exact (List.mem_erase_of_ne hsb).mpr hsm
        · rw [if_neg hbz] at h
          split at h
          · rename_i hnone
            rw [hls] at hnone
            simp at hnone
          · rename_i sellNow hsn
            rw [hls] at hsn
            have hsn2 := Option.some.inj hsn
            subst hsn2
            by_cases hsz : sell_offer.sol_amount - a ≤ 0
            · rw [if_pos hsz] at h
              rw [if_pos hsm] at h
              simp only [Except.ok.injEq, Prod.mk.injEq, true_and] at h
              subst h
              refine ⟨?_, ?_, ?_, ?_, ?_, ?_⟩
              · rw [alookup_asetStatus, if_neg hsb, hlb]
                rfl
              · rw [alookup_asetStatus, if_pos rfl, hls]
                rfl
              · rw [alookup_asetStatus, if_neg hsb, hlb, if_neg hbz]
                simp [hbA]
              · rw [alookup_asetStatus, if_pos rfl, hls, if_pos hsz]
                rfl
              · simp only [hbz, not_false_eq_true, iff_true]
                exact (List.mem_erase_of_ne hbs).mpr hbm
              · simp only [hsz, not_true_eq_false, iff_false]
                exact hnd.not_mem_erase
            · rw [if_neg hsz] at h
              simp only [Except.ok.injEq, Prod.mk.injEq, true_and] at h
              subst h
              refine ⟨?_, ?_, ?_, ?_, ?_, ?_⟩
              · rw [hlb]
                rfl
              · rw [hls]
                rfl
              · rw [hlb, if_neg hbz]
                simp [hbA]
              · rw [hls, if_neg hsz]
                simp [hsA]
              · simp only [hbz, not_false_eq_true, iff_true]
                exact hbm
              · simp only [hsz, not_false_eq_true, iff_true]
                exact hsm

/-- Concrete run of `execute_match` on `demoPool`, used to instantiate the
hypothesised claim theorems. -/
theorem exec_demoPool_half :
    execute_match demoPool 1 2 (1/2) 95 = Except.ok (true, demoPoolAfter) := by
  norm_num [execute_match, demoPool, demoPoolAfter, add_offer, alookup, adec,
    asetStatus, OTCPool.init]

/-- Witness for claim C1 at a concrete input: executing 1/2 against the
two legs of `demoPool` leaves BUY id 1 at 1/2 and SELL id 2 at 3/2, both
still ACTIVE and active. -/
theorem claim_C1_witness :
    ∃ bo so, alookup demoPool.offers 1 = some bo ∧
      alookup demoPool.offers 2 = some so ∧
      bo.status = Status.ACTIVE ∧ so.status = Status.ACTIVE ∧
      (alookup demoPoolAfter.offers 1).map Offer.sol_amount =
        some (bo.sol_amount - 1/2) ∧
      (alookup demoPoolAfter.offers 2).map Offer.sol_amount =
        some (so.sol_amount - 1/2) ∧
      (alookup demoPoolAfter.offers 1).map Offer.status =
        some (if bo.sol_amount - 1/2 ≤ 0 then Status.COMPLETED else Status.ACTIVE) ∧
      (alookup demoPoolAfter.offers 2).map Offer.status =
        some (if so.sol_amount - 1/2 ≤ 0 then Status.COMPLETED else Status.ACTIVE) ∧
      (1 ∈ demoPoolAfter.active_offers ↔ ¬bo.sol_amount - 1/2 ≤ 0) ∧
      (2 ∈ demoPoolAfter.active_offers ↔ ¬so.sol_amount - 1/2 ≤ 0) :=
  claim_C1 demoPool 1 2 (1/2) 95 demoPoolAfter ⟨by decide, by decide⟩
    (by decide) exec_demoPool_half

/-- Counterexample for claim C1 as stated: executing quantity 2 against
BUY id 1 (resting quantity 1) succeeds and stores the NEGATIVE quantity
-1 on the completed buy leg — quantities are not clamped at zero. -/
theorem claim_C1_counterexample :
    (execute_match demoPool 1 2 2 95).toOption.map
      (fun r => (r.1, (alookup r.2.offers 1).map Offer.sol_amount,
                 (alookup r.2.offers 1).map Offer.status)) =
      some (true, some (-1), some Status.COMPLETED) ∧ ((-1 : ℚ) < 0) := by
  constructor
  · norm_num [execute_match, demoPool, add_offer, alookup, adec, asetStatus,
      OTCPool.init, Except.toOption]
  · norm_num

/-- Claim C2, corrected.  The original claim says posting with
quantity ≤ 0 or price ≤ 0 fails with InvalidOrder and leaves the book
unchanged; in the source `add_offer` performs no validation at all
(the counterexample posts quantity -1 at price 0 and gets an ACTIVE
offer).  Amended statement, proved here: for EVERY quantity and price,
valid or not, `add_offer` allocates the current `next_id`, stores an
ACTIVE offer with exactly the given fields, and appends the id to the
active index. -/
theorem claim_C2 (p : OTCPool) (ty : Side) (q pr : ℚ) (u : String)
    (hfresh : alookup p.offers p.next_id = none) :
    (add_offer p ty q pr u).1 = p.next_id ∧
    alookup (add_offer p ty q pr u).2.offers p.next_id =
      some { id := p.next_id, type := ty, sol_amount := q, price_per_sol := pr,
             total_usdc := q * pr, user_id := u, status := Status.ACTIVE } ∧
    (add_offer p ty q pr u).2.active_offers = p.active_offers ++ [p.next_id] := by
  refine ⟨rfl, ?_, rfl⟩
  exact alookup_append_fresh p.offers p.next_id _ hfresh

/-- Witness for claim C2 at a concrete input: posting on the empty pool
(with the invalid quantity -1 and price 0) allocates id 1 and stores the
ACTIVE offer. -/
theorem claim_C2_witness :
    (add_offer OTCPool.init Side.BUY (-1) 0 "u").1 = OTCPool.init.next_id ∧
    alookup (add_offer OTCPool.init Side.BUY (-1) 0 "u").2.offers
        OTCPool.init.next_id =
      some { id := OTCPool.init.next_id, type := Side.BUY, sol_amount := -1,
             price_per_sol := 0, total_usdc := -1 * 0, user_id := "u",
             status := Status.ACTIVE } ∧
    (add_offer OTCPool.init Side.BUY (-1) 0 "u").2.active_offers =
      OTCPool.init.active_offers ++ [OTCPool.init.next_id] :=
  claim_C2 OTCPool.init Side.BUY (-1) 0 "u" rfl

/-- Counterexample for claim C2 as stated: posting quantity -1 at price 0
is not rejected — it returns id 1 and grows the book from zero offers to
one ACTIVE offer with the invalid fields stored verbatim. -/
theorem claim_C2_counterexample :
    (add_offer OTCPool.init Side.BUY (-1) 0 "u").1 = 1 ∧
    (add_offer OTCPool.init Side.BUY (-1) 0 "u").2.offers.length = 1 ∧
    OTCPool.init.offers.length = 0 ∧
    (alookup (add_offer OTCPool.init Side.BUY (-1) 0 "u").2.offers 1).map
      (fun o => (o.status, o.sol_amount, o.price_per_sol)) =
      some (Status.ACTIVE, -1, 0) ∧ ((-1 : ℚ) ≤ 0) := by
  refine ⟨rfl, rfl, rfl, ?_, by norm_num⟩
  norm_num [add_offer, alookup, OTCPool.init]

/-- Claim C3, corrected.  The original claim says `execute` fails closed
(false, no mutation) unless both ids exist, both offers are ACTIVE, AND
quantity > 0, so calls with quantity ≤ 0 return false and mutate nothing;
the source checks only the ids and statuses, never the quantity (the
counterexample executes quantity -1, which returns true and INCREASES
both legs).  Amended statement, proved here: `execute_match` returns
false and leaves the pool unchanged whenever the id/status guard fails;
no condition on the quantity is checked. -/
theorem claim_C3 (p : OTCPool) (b s : Nat) (a pr : ℚ)
    (hg : ¬exec_guard p b s) :
    execute_match p b s a pr = Except.ok (false, p) := by
  cases hb : alookup p.offers b with
  | none => simp [execute_match, hb]
  | some bo =>
    cases hs : alookup p.offers s with
    | none => simp [execute_match, hb, hs]
    | some so =>
      have hC : bo.status ≠ Status.ACTIVE ∨ so.status ≠ Status.ACTIVE ∨
          b ∉ p.active_offers ∨ s ∉ p.active_offers := by
        by_contra hC
        push_neg at hC
        exact hg ⟨bo, so, hb, hs, hC.1, hC.2.1, hC.2.2.1, hC.2.2.2⟩
      simp only [execute_match, hb, hs]
      rw [if_pos hC]

/-- Witness for claim C3 at a concrete input: executing against ids that
do not exist in the empty pool returns false and changes nothing. -/
theorem claim_C3_witness :
    execute_match OTCPool.init 1 2 5 95 = Except.ok (false, OTCPool.init) :=
  claim_C3 OTCPool.init 1 2 5 95
    (by rintro ⟨bo, so, hb, -⟩; simp [alookup, OTCPool.init] at hb)

/-- Counterexample for claim C3 as stated: executing the NEGATIVE quantity
-1 against two valid ACTIVE legs is not rejected — it returns true and
mutates the book, increasing the BUY leg from 1 to 2. -/
theorem claim_C3_counterexample :
    ((-1 : ℚ) ≤ 0) ∧
    (execute_match demoPool 1 2 (-1) 95).toOption.map
      (fun r => (r.1, (alookup r.2.offers 1).map Offer.sol_amount)) =
      some (true, some 2) := by
  refine ⟨by norm_num, ?_⟩
  norm_num [execute_match, demoPool, add_offer, alookup, adec, asetStatus,
    OTCPool.init, Except.toOption]

/-- Claim C4, code_bug.  The claim says `matchCandidates()` is
deterministic and returns, on every invocation over a fixed book state,
the crossing candidates with buys sorted by price descending and sells by
price ascending, ties broken by ascending id, using each leg's full
unreduced quantity.  The enumeration is clearly the intent (it is what
the loop body computes, and the method docstring promises a returned list
of matches), but the code never returns it: `simulate_matching`
re-acquires the non-reentrant pool lock it already holds via
`self.get_offers_by_type` (otc_pool.py lines 93-95), so EVERY invocation
deadlocks before computing anything — the same slip recorded under C7.
The first two conjuncts evaluate the lock-aware model at concrete failing
inputs: the call never returns a sequence.  The third conjunct proves the
claimed enumeration for the candidate loop body `mkCandidates` applied to
the two per-side lists — the sequence an invocation would return were the
lock reentrant: one `mkMatch` candidate per crossing (buy, sell) pair,
buys stable-sorted by price descending and sells by price ascending with
equal prices broken by ascending id, quantities unreduced; being a pure
function of the pool state, this body is deterministic. -/
theorem claim_C4 :
    simulate_matchingL OTCPool.init = none ∧
    simulate_matchingL demoPool = none ∧
    (∀ p : OTCPool, PoolInv p →
      ∃ buys sells : List Offer,
        buys.Perm (get_offers_by_type p Side.BUY) ∧ buys.Pairwise buyOrd ∧
        sells.Perm (get_offers_by_type p Side.SELL) ∧ sells.Pairwise sellOrd ∧
        mkCandidates (get_offers_by_type p Side.BUY)
            (get_offers_by_type p Side.SELL) =
          buys.flatMap fun b =>
            (sells.filter fun s =>
              decide (s.price_per_sol ≤ b.price_per_sol)).map (mkMatch b)) :=
  ⟨rfl, rfl, fun p hp =>
    ⟨(get_offers_by_type p Side.BUY).insertionSort buyLE,
     (get_offers_by_type p Side.SELL).insertionSort sellLE,
     List.perm_insertionSort buyLE _,
     insertionSort_pairwise_buy _ (get_offers_by_type_pairwise p hp Side.BUY),
     List.perm_insertionSort sellLE _,
     insertionSort_pairwise_sell _ (get_offers_by_type_pairwise p hp Side.SELL),
     rfl⟩⟩

/-- Witness for claim C4 at a concrete input: the body enumeration on
`demoPool`, with the pool invariant discharged. -/
theorem claim_C4_witness :
    ∃ buys sells : List Offer,
      buys.Perm (get_offers_by_type demoPool Side.BUY) ∧
      buys.Pairwise buyOrd ∧
      sells.Perm (get_offers_by_type demoPool Side.SELL) ∧
      sells.Pairwise sellOrd ∧
      mkCandidates (get_offers_by_type demoPool Side.BUY)
          (get_offers_by_type demoPool Side.SELL) =
        buys.flatMap fun b =>
          (sells.filter fun s =>
            decide (s.price_per_sol ≤ b.price_per_sol)).map (mkMatch b) :=
  claim_C4.2.2 demoPool ⟨by decide, by decide⟩

/-- Claim C5, corrected.  The original claim says the arbitrage score is
monotone in the net spread and ALWAYS lies in [0, 100]; monotonicity
holds, but the volume adjustment multiplies the clamped base score by 1.1
for volumes below 1 SOL, so the final score reaches up to 110 (the
counterexample exhibits score 110).  Amended statement, proved here: the
score is monotonically non-decreasing in the net spread for fixed volume
(hence for fixed side and execution cost), always lies in [0, 110], and
lies in [0, 100] whenever the volume is at least 1; the separate manual
scanner score of the app is monotone and genuinely clamped to [0, 100]. -/
theorem claim_C5 :
    (∀ v n₁ n₂ : ℚ, n₁ ≤ n₂ → score_of_net n₁ v ≤ score_of_net n₂ v) ∧
    (∀ (otc jup : ℚ) (ty : Side) (v imp : ℚ),
      0 ≤ calculate_arbitrage_score otc jup ty v imp ∧
      calculate_arbitrage_score otc jup ty v imp ≤ 110) ∧
    (∀ (otc jup : ℚ) (ty : Side) (v imp : ℚ), 1 ≤ v →
      calculate_arbitrage_score otc jup ty v imp ≤ 100) ∧
    (∀ n₁ n₂ : ℚ, n₁ ≤ n₂ → scanner_score n₁ ≤ scanner_score n₂) ∧
    (∀ n : ℚ, 0 ≤ scanner_score n ∧ scanner_score n ≤ 100) := by
  have hbase0 : ∀ n : ℚ, 0 ≤ base_score n := fun n => le_max_left 0 _
  have hbase100 : ∀ n : ℚ, base_score n ≤ 100 := fun n =>
    max_le (by norm_num) (min_le_left 100 _)
  have hvf0 : ∀ v : ℚ, 0 ≤ volume_factor v := by
    intro v
    unfold volume_factor
    split_ifs <;> norm_num
  have hvf11 : ∀ v : ℚ, volume_factor v ≤ 11 / 10 := by
    intro v
    unfold volume_factor
    split_ifs <;> norm_num
  have hvf1 : ∀ v : ℚ, 1 ≤ v → volume_factor v ≤ 1 := by
    intro v hv
    unfold volume_factor
    split_ifs with h1 h2
    · norm_num
    · linarith
    · exact le_refl 1
  have hmono : ∀ v n₁ n₂ : ℚ, n₁ ≤ n₂ → score_of_net n₁ v ≤ score_of_net n₂ v := by
    intro v n₁ n₂ hn
    unfold score_of_net
    apply mul_le_mul_of_nonneg_right _ (hvf0 v)
    unfold base_score
    exact max_le_max (le_refl 0) (min_le_min (le_refl 100) (by nlinarith))
  refine ⟨hmono, ?_, ?_, ?_, ?_⟩
  · intro otc jup ty v imp
    unfold calculate_arbitrage_score score_of_net
    constructor
    · exact mul_nonneg (hbase0 _) (hvf0 v)
    · calc base_score _ * volume_factor v ≤ 100 * (11 / 10) :=
          mul_le_mul (hbase100 _) (hvf11 v) (hvf0 v) (by norm_num)
        _ = 110 := by norm_num
  · intro otc jup ty v imp hv
    unfold calculate_arbitrage_score score_of_net
    calc base_score _ * volume_factor v ≤ 100 * 1 :=
        mul_le_mul (hbase100 _) (hvf1 v hv) (hvf0 v) (by norm_num)
      _ = 100 := by norm_num
  · intro n₁ n₂ hn
    unfold scanner_score
    exact min_le_min (le_refl 100) (max_le_max (le_refl 0) (by nlinarith))
  · intro n
    unfold scanner_score
    refine ⟨le_min (by norm_num) (le_max_left 0 _), min_le_left 100 _⟩

/-- Witness for claim C5 at concrete inputs, discharging the ordering and
volume hypotheses. -/
theorem claim_C5_witness :
    score_of_net 0 2 ≤ score_of_net 1 2 ∧
    calculate_arbitrage_score 101 100 Side.BUY 2 0 ≤ 100 ∧
    scanner_score 0 ≤ scanner_score 1 :=
  ⟨claim_C5.1 2 0 1 (by norm_num),
   claim_C5.2.2.1 101 100 Side.BUY 2 0 (by norm_num),
   claim_C5.2.2.2.1 0 1 (by norm_num)⟩

/-- Counterexample for claim C5 as stated: a BUY offer 10% above the
reference with no execution cost and volume 1/2 SOL scores exactly 110,
outside [0, 100]. -/
theorem claim_C5_counterexample :
    calculate_arbitrage_score 110 100 Side.BUY (1 / 2) 0 = 110 ∧
    ¬calculate_arbitrage_score 110 100 Side.BUY (1 / 2) 0 ≤ 100 := by
  constructor <;>
    norm_num [calculate_arbitrage_score, score_of_net, base_score,
      volume_factor, spread_pct]


/-- Claim C6, corrected.  The original claim says allocated ids are
unique, strictly increasing and never reused across EVERY operation
sequence including clearing the pool; but `clear_pool` resets the counter
to 1, so ids are reused after a clear (the counterexample allocates id 1
twice for different offers).  Amended statement, proved here: as long as
`clear_pool` is not invoked the claim holds — `add_offer` hands out the
strictly increasing counter value, the fresh id is never already present,
and `add_offer`, `cancel_offer` and `execute_match` all preserve the
bound that every stored key is below the counter. -/
theorem claim_C6 :
    (∀ (p : OTCPool) (ty : Side) (q pr : ℚ) (u : String),
      (add_offer p ty q pr u).1 = p.next_id ∧
      (add_offer p ty q pr u).2.next_id = p.next_id + 1) ∧
    (∀ (p : OTCPool) (ty : Side) (q pr : ℚ) (u : String), IdBound p →
      alookup p.offers (add_offer p ty q pr u).1 = none ∧
      IdBound (add_offer p ty q pr u).2) ∧
    (∀ (p : OTCPool) (i : Nat), IdBound p → IdBound (cancel_offer p i).2) ∧
    (∀ (p : OTCPool) (b s : Nat) (a pr : ℚ) (r : Bool) (p' : OTCPool),
      IdBound p → execute_match p b s a pr = Except.ok (r, p') →
      IdBound p') := by
  refine ⟨fun p ty q pr u => ⟨rfl, rfl⟩, ?_, ?_, ?_⟩
  · intro p ty q pr u hB
    constructor
    · exact (alookup_eq_none_iff _ _).2 fun e he =>
        Nat.ne_of_lt (hB e.1 (List.mem_map_of_mem Prod.fst he))
    · intro k hk
      simp only [add_offer, List.map_append, List.map_cons, List.map_nil] at hk
      rcases List.mem_append.mp hk with h | h
      · exact Nat.lt_succ_of_lt (hB k h)
      · simp at h
        subst h
        exact Nat.lt_succ_self _
  · intro p i hB
    unfold cancel_offer
    split_ifs with hc
    · intro k hk
      simp only [keys_asetStatus] at hk
      exact hB k hk
    · exact hB
  · intro p b s a pr r p' hB h
    rcases execute_match_ok h with ⟨-, rfl⟩ | ⟨-, hnext, hkeys, -⟩
    · exact hB
    · intro k hk
      rw [hkeys] at hk
      rw [hnext]
      exact hB k hk

/-- Witness for claim C6 at concrete inputs, discharging the `IdBound`
and execution hypotheses on `demoPool`. -/
theorem claim_C6_witness :
    ((add_offer demoPool Side.BUY 4 70 "w").1 = demoPool.next_id ∧
      (add_offer demoPool Side.BUY 4 70 "w").2.next_id = demoPool.next_id + 1) ∧
    (alookup demoPool.offers (add_offer demoPool Side.BUY 4 70 "w").1 = none ∧
      IdBound (add_offer demoPool Side.BUY 4 70 "w").2) ∧
    IdBound (cancel_offer demoPool 1).2 ∧
    IdBound demoPoolAfter :=
  ⟨claim_C6.1 demoPool Side.BUY 4 70 "w",
   claim_C6.2.1 demoPool Side.BUY 4 70 "w" (by unfold IdBound; decide),
   claim_C6.2.2.1 demoPool 1 (by unfold IdBound; decide),
   claim_C6.2.2.2 demoPool 1 2 (1 / 2) 95 true demoPoolAfter
     (by unfold IdBound; decide) exec_demoPool_half⟩

/-- Counterexample for claim C6 as stated: after posting (which allocates
id 1) and then clearing the pool, the next post allocates id 1 AGAIN for a
different offer — ids are reused across clear_pool. -/
theorem claim_C6_counterexample :
    (add_offer OTCPool.init Side.BUY 1 100 "u").1 = 1 ∧
    (add_offer (clear_pool (add_offer OTCPool.init Side.BUY 1 100 "u").2)
        Side.SELL 5 90 "v").1 = 1 := ⟨rfl, rfl⟩

/-- Claim C7, code_bug.  The claim says every Offer Book operation
terminates, in particular `simulate_matching` and `get_pool_stats`
complete their critical section in bounded time.  The pool lock is a
non-reentrant `threading.Lock`, and both methods re-acquire it (via
`get_offers_by_type` and `get_active_offers` respectively) while already
holding it, so both block forever on EVERY pool state — while the
single-acquisition operations do terminate.  This theorem evaluates the
lock-aware model: the two nested-locking methods deadlock (`none`), the
others complete and agree with the lock-erased semantics. -/
theorem claim_C7 (p : OTCPool) :
    simulate_matchingL p = none ∧ get_pool_statsL p = none ∧
    add_offerL p Side.BUY 1 100 "u" = some (add_offer p Side.BUY 1 100 "u") ∧
    cancel_offerL p 1 = some (cancel_offer p 1) ∧
    execute_matchL p 1 2 1 100 = some (execute_match p 1 2 1 100) :=
  ⟨rfl, rfl, rfl, rfl, rfl⟩

/-- Claim C8, corrected.  The original claim says the stored notional
always equals current quantity times price, recomputed whenever the
quantity changes; `execute_match` decrements `sol_amount` but never
touches `total_usdc` (the counterexample shows a partially filled leg with
quantity 1, price 100 and stale notional 200).  Amended statement, proved
here: `total_usdc` equals quantity times price AT CREATION, and every
non-raising `execute_match` leaves every stored `total_usdc` unchanged. -/
theorem claim_C8 :
    (∀ (p : OTCPool) (ty : Side) (q pr : ℚ) (u : String),
      alookup p.offers p.next_id = none →
      (alookup (add_offer p ty q pr u).2.offers p.next_id).map Offer.total_usdc =
        some (q * pr)) ∧
    (∀ (p : OTCPool) (b s : Nat) (a pr : ℚ) (r : Bool) (p' : OTCPool),
      execute_match p b s a pr = Except.ok (r, p') →
      ∀ k, (alookup p'.offers k).map Offer.total_usdc =
        (alookup p.offers k).map Offer.total_usdc) := by
  constructor
  · intro p ty q pr u h
    unfold add_offer
    rw [alookup_append_fresh _ _ _ h]
    rfl
  · intro p b s a pr r p' h k
    rcases execute_match_ok h with ⟨-, rfl⟩ | ⟨-, -, -, ht⟩
    · rfl
    · exact ht k

/-- Witness for claim C8 at concrete inputs: a fresh post stores notional
2 × 100, and the partial execution on `demoPool` leaves the stored
notional of offer 1 unchanged. -/
theorem claim_C8_witness :
    (alookup (add_offer OTCPool.init Side.BUY 2 100 "u").2.offers
        OTCPool.init.next_id).map Offer.total_usdc = some (2 * 100) ∧
    (alookup demoPoolAfter.offers 1).map Offer.total_usdc =
      (alookup demoPool.offers 1).map Offer.total_usdc :=
  ⟨claim_C8.1 OTCPool.init Side.BUY 2 100 "u" rfl,
   claim_C8.2 demoPool 1 2 (1 / 2) 95 true demoPoolAfter exec_demoPool_half 1⟩

/-- Counterexample for claim C8 as stated: after executing 1 SOL against
BUY id 1 of `demoNotionalPool` (2 SOL at price 100, notional 200), the
leg rests at quantity 1 and price 100 but its stored notional is still
200 ≠ 1 × 100. -/
theorem claim_C8_counterexample :
    (execute_match demoNotionalPool 1 2 1 100).toOption.map
      (fun r => (alookup r.2.offers 1).map fun o =>
        (o.sol_amount, o.price_per_sol, o.total_usdc)) =
      some (some (1, 100, 200)) ∧ (1 : ℚ) * 100 ≠ 200 := by
  refine ⟨?_, by norm_num⟩
  norm_num [execute_match, demoNotionalPool, add_offer, alookup, adec,
    asetStatus, OTCPool.init, Except.toOption]

/-- Claim C9, confirmed.  A failed reference-price fetch leaves the
monitor price state exactly unchanged, and after any history containing
at least one successful fetch followed by arbitrarily many failures,
`get_current_price` still returns the price of the last successful
fetch (never `none`). -/
theorem claim_C9 :
    (∀ s : MonitorState, monitor_cycle s none = s) ∧
    (∀ (s : MonitorState) (pre : List (Option (ℚ × Nat))) (price : ℚ)
      (now : Nat) (post : List (Option (ℚ × Nat))),
      (∀ f ∈ post, f = none) →
      get_current_price (run_monitor s (pre ++ some (price, now) :: post)) =
        some price) := by
  refine ⟨fun s => rfl, ?_⟩
  intro s pre price now post hpost
  have h1 : run_monitor s (pre ++ some (price, now) :: post) =
      run_monitor (monitor_cycle (run_monitor s pre) (some (price, now))) post := by
    simp [run_monitor, List.foldl_append]
  rw [h1, run_monitor_nones _ _ hpost]
  rfl

/-- Witness for claim C9 at a concrete input: one failure, one success at
price 100, then three consecutive failures; the current price is still
100. -/
theorem claim_C9_witness :
    get_current_price (run_monitor MonitorState.init
      ([none] ++ some (100, 1) :: [none, none, none])) = some 100 :=
  claim_C9.2 MonitorState.init [none] 100 1 [none, none, none] (by simp)

/-- Claim C10, code_bug.  The claim says `execute(id, id, q, p)` with both
legs naming the same ACTIVE offer must not raise and must not decrement
the offer twice.  In the source the one offer IS decremented twice
through the dict alias, and when it reaches zero the second
`active_offers.remove` raises ValueError: on a pool whose only offer id 1
has quantity 2, `execute_match 1 1 1` raises (modelled `Except.error`),
and with quantity 3 the call returns true leaving quantity 3 - 2·1 = 1. -/
theorem claim_C10 :
    execute_match demoSelfPool 1 1 1 100 = Except.error () ∧
    (execute_match demoSelfPool3 1 1 1 100).toOption.map
      (fun r => (r.1, (alookup r.2.offers 1).map Offer.sol_amount)) =
      some (true, some 1) := by
  constructor
  · norm_num [execute_match, demoSelfPool, add_offer, alookup, adec,
      asetStatus, OTCPool.init]
  · norm_num [execute_match, demoSelfPool3, add_offer, alookup, adec,
      asetStatus, OTCPool.init, Except.toOption]
